import Mathlib

/-!
# Verification of the dl-youtube batch staging pipeline

A shallow embedding of `dl-youtube.py` (class `DLYoutube`): the input-list
parser, the path-segment sanitizer, the per-record staging orchestrator
(video and audio branches), and the top-level driver.

Python strings are modelled as `List Char`.  The on-disk state is modelled as
a map from paths to an optional content version (`none` = file absent),
together with a directory-existence map.  The three external collaborators
(the downloader, the loudness normalizer, the tag writer) are black boxes,
as in the source; their success/failure outcomes and produced contents are
supplied by an `Oracle`.  Each externally visible action is recorded in an
event trace.
-/

namespace DLY

/-- A Python string, modelled as its list of characters. -/
abbrev PyStr := List Char

/-- `os.path.join a b` for a relative second component (POSIX). -/
def pyJoin (a b : PyStr) : PyStr := a ++ '/' :: b

/-- Python `str.strip()`: drop whitespace from both ends
(right side first; the order does not matter). -/
def pyStrip (s : PyStr) : PyStr :=
  ((s.reverse.dropWhile Char.isWhitespace).reverse).dropWhile Char.isWhitespace

/-- Python `str.strip('"')`: drop double quotes from both ends. -/
def pyStripQuote (s : PyStr) : PyStr :=
  (((s.dropWhile (fun c => c == '"')).reverse.dropWhile (fun c => c == '"'))).reverse

/-- Python `str.lower()` on one ASCII character. -/
def pyLowerChar (c : Char) : Char :=
  if 'A' ≤ c ∧ c ≤ 'Z' then Char.ofNat (c.toNat + 32) else c

/-- Python `str.lower()`. -/
def pyLower (s : PyStr) : PyStr := s.map pyLowerChar

/-!
## The path-segment sanitizer

Source (`DLYoutube.main`, lines 290/293/296):
`re.sub('[^0-9a-zA-Z]+', '_', text)` — every maximal run of
non-alphanumeric characters becomes a single underscore.
`Char.isAlphanum` is exactly the ASCII class `[0-9a-zA-Z]`.
-/

/-- One pass over the text.  The flag records whether we are currently inside
a run of non-alphanumeric characters whose single `'_'` has already been
emitted (so further characters of the same run are dropped). -/
def sanitizeAux : PyStr → Bool → PyStr
  | [], _ => []
  | c :: cs, inRun =>
    if c.isAlphanum then c :: sanitizeAux cs false
    else if inRun then sanitizeAux cs true
    else '_' :: sanitizeAux cs true

/-- `re.sub('[^0-9a-zA-Z]+', '_', s)` from the source. -/
def sanitizeSegment (s : PyStr) : PyStr := sanitizeAux s false

/-- `true` iff the text has no two consecutive underscores. -/
def noTwoUnderscores : PyStr → Bool
  | [] => true
  | [_] => true
  | a :: b :: rest => !(a == '_' && b == '_') && noTwoUnderscores (b :: rest)

/-!
## The input parser

Source: `DLYoutube.parse_input_list` (lines 183–193).  `decomment` yields
`row.split('#')[0].strip()` for each input line, skipping lines that are
empty after stripping; `csv.DictReader` then splits each surviving line into
fields and pairs them with the nine fixed header names
(`INPUT_CSV_HEADER`, line 112), padding missing trailing fields with `None`
(the reader's `restval`) and ignoring extra fields.  The `csv` module is an
external collaborator; its field-splitting is modelled for quote-free rows
as splitting on `','`.
-/

/-- `row.split('#')[0].strip()`, yielding `none` for lines that are empty
after comment stripping (such lines are discarded). -/
def decommentLine (row : PyStr) : Option PyStr :=
  let raw := pyStrip (row.takeWhile (fun c => c != '#'))
  if raw = [] then none else some raw

/-- Split a list of characters on a separator character. -/
def splitOnChar (sep : Char) : PyStr → List PyStr
  | [] => [[]]
  | c :: cs =>
    let r := splitOnChar sep cs
    if c == sep then [] :: r
    else (c :: r.headD []) :: r.tail

/-- The `csv` reader's field-splitting of one (quote-free) row. -/
def csvSplitRow (row : PyStr) : List PyStr := splitOnChar ',' row

/-- `csv.DictReader` row semantics: the nine header names are paired with
the row's fields in order; missing trailing fields become `none`. -/
def toRecordRow (fields : List PyStr) : List (Option PyStr) :=
  (List.range 9).map fun i => fields.get? i

/-- `DLYoutube.parse_input_list`: comment-strip, discard blank lines, then
split each surviving line into a nine-entry record row. -/
def parse_input_list (lines : List PyStr) : List (List (Option PyStr)) :=
  (lines.filterMap decommentLine).map (fun l => toRecordRow (csvSplitRow l))

/-!
## Records and field extraction

Source: `DLYoutube.main`, lines 276–288.  Each field of the record row is
read and `strip().strip('"')`-ed.  A `None` field (produced by the reader
for a short row) makes `.strip()` raise `AttributeError`; this happens
*before* the per-record `try` block, so it is modelled as `none` here and
propagates out of the record loop.
-/

/-- One input record after field extraction (source names kept). -/
structure Record where
  dltype : PyStr
  dlink : PyStr
  albumartist : PyStr
  album : PyStr
  song : PyStr
  artist : PyStr
  genre : PyStr
  year : PyStr
  cover : PyStr
  deriving DecidableEq

/-- `field.strip().strip('"')`. -/
def stripField (s : PyStr) : PyStr := pyStripQuote (pyStrip s)

/-- Field extraction for one record row (lines 276–288); `none` models the
`AttributeError` raised by stripping a missing (`None`) field. -/
def extractFields (row : List (Option PyStr)) : Option Record := do
  let dlink ← (row.get? 1).join
  let albumartist ← (row.get? 2).join
  let album ← (row.get? 3).join
  let song ← (row.get? 4).join
  let artist ← (row.get? 5).join
  let genre ← (row.get? 6).join
  let year ← (row.get? 7).join
  let cover ← (row.get? 8).join
  let dltype ← (row.get? 0).join
  pure { dltype := stripField dltype, dlink := stripField dlink,
         albumartist := stripField albumartist, album := stripField album,
         song := stripField song, artist := stripField artist,
         genre := stripField genre, year := stripField year,
         cover := stripField cover }

/-- `DLYoutube.get_dl_type` (lines 228–240): `(getaudio, getvideo)` from the
download-type flag. -/
def get_dl_type (opt : PyStr) : Bool × Bool :=
  if pyLower opt = "a".data then (true, false)
  else if pyLower opt = "v".data then (false, true)
  else if pyLower opt = "av".data then (true, true)
  else (false, false)

/-- `needle in hay` (Python substring test). -/
def containsSub (needle hay : PyStr) : Bool :=
  hay.tails.any (fun t => needle.isPrefixOf t)

/-- `DLYoutube.isYoutubeLink` (lines 217–218): `'youtube' in link`. -/
def isYoutubeLink (link : PyStr) : Bool := containsSub "youtube".data link

/-- `DLYoutube.VIDEO_FILE_EXT` (line 110), duplicate `'mp4'` included. -/
def VIDEO_FILE_EXT : List PyStr :=
  ["mp4".data, "mkv".data, "webm".data, "mpg".data, "mpeg".data, "mpe".data,
   "mpv".data, "mp4".data, "m4v".data, "avi".data, "wmv".data, "mov".data]

/-!
## File-system state
-/

/-- The files on disk: path ↦ content version (`none` = absent). -/
abbrev FileMap := PyStr → Option Nat

/-- `os.path.isfile`. -/
def isfile (fm : FileMap) (p : PyStr) : Bool := (fm p).isSome

/-- Create or overwrite a file. -/
def setFile (fm : FileMap) (p : PyStr) (v : Nat) : FileMap :=
  fun q => if q = p then some v else fm q

/-- `os.remove` wrapped in `try/except OSError: pass` (removing an absent
file is a silent no-op either way). -/
def removeFile (fm : FileMap) (p : PyStr) : FileMap :=
  fun q => if q = p then none else fm q

/-- Files plus directory-existence state. -/
structure FS where
  file : FileMap
  dir : PyStr → Bool

/-- `DLYoutube.downloaded_video_file_exist` (lines 221–226): the first
`fnamenoext.<ext>` with `ext` in `VIDEO_FILE_EXT` that exists. -/
def downloaded_video_file_exist (fm : FileMap) (fnamenoext : PyStr) : Option PyStr :=
  (VIDEO_FILE_EXT.map (fun fext => fnamenoext ++ '.' :: fext)).find? (fun f => isfile fm f)

/-- The extension part of `os.path.splitext` (used at line 381): the part of
the basename from its last dot on, where leading dots of the basename do not
count. -/
def pySplitextExt (cs : PyStr) : PyStr :=
  let keep := fun c : Char => !(c == '.' || c == '/')
  let suffix := cs.reverse.takeWhile keep
  match cs.reverse.dropWhile keep with
  | '.' :: before =>
    if (before.takeWhile (fun c => c != '/')).all (fun c => c == '.') then []
    else '.' :: suffix.reverse
  | _ => []

/-!
## External collaborators and events

The downloader (`youtube_dl`), the normalizer (`ffmpeg_normalize`) and the
tag writer (`mutagen`) are black boxes; an `Oracle` fixes the outcome of
each call a record can make, and every call is recorded as an event.
-/

/-- Outcomes and produced contents of the external calls for one record. -/
structure Oracle where
  /-- whether `os.makedirs` succeeds on a directory that does not exist -/
  mkdirOk : PyStr → Bool
  /-- video `ydl.download` succeeds -/
  videoDLOk : Bool
  /-- extension (without the dot) of the file the video download produces
  when no mkv conversion is requested -/
  videoExt : PyStr
  /-- content of the downloaded video temp file -/
  videoContent : Nat
  /-- video `run_normalization` succeeds -/
  videoNormOk : Bool
  /-- content the video normalizer writes -/
  videoNormContent : Nat
  /-- audio `ydl.download` succeeds -/
  audioDLOk : Bool
  /-- content of the downloaded audio temp file -/
  audioContent : Nat
  /-- `ID3(audiotmpfpath)` loads without raising -/
  id3LoadOk : Bool
  /-- `audio.save()` succeeds -/
  tagSaveOk : Bool
  /-- content of the temp artifact after a successful tag save -/
  taggedContent : Nat
  /-- audio `run_normalization` succeeds -/
  audioNormOk : Bool
  /-- content the audio normalizer writes -/
  audioNormContent : Nat

/-- Module-level folder configuration and CLI flags. -/
structure Config where
  outputFolder : PyStr
  tempVideoFolder : PyStr
  tempAudioFolder : PyStr
  coverFolder : PyStr
  convert_to_mkv : Bool

/-- Observable actions of one run. -/
inductive Ev where
  /-- the record loop reached record `idx` -/
  | recordStart (idx : Nat)
  /-- video `ydl.download([dlink])` invoked (line 367) -/
  | downloadVideo (link : PyStr)
  /-- audio `ydl.download([dlink])` invoked (line 439) -/
  | downloadAudio (link : PyStr)
  /-- video `run_normalization` invoked (line 407) -/
  | normalizeVideo (src dst : PyStr)
  /-- audio `run_normalization` invoked (line 496) -/
  | normalizeAudio (src dst : PyStr)
  /-- `shutil.copyfile` invoked (line 395) -/
  | copyVideo (src dst : PyStr)
  /-- `audio.save()` attempted (line 464), with its outcome -/
  | tagSave (path : PyStr) (ok : Bool)
  /-- the per-record `except` handler logged an error (lines 499–502) -/
  | errorLogged
  deriving DecidableEq

/-- Exceptions that can be raised inside the per-record `try` block. -/
inductive Err where
  | dlYoutubeDLError
  | normalizeError
  | id3Error
  deriving DecidableEq

def isVideoStep : Ev → Bool
  | .downloadVideo _ => true
  | .normalizeVideo _ _ => true
  | .copyVideo _ _ => true
  | _ => false

def isAudioStep : Ev → Bool
  | .downloadAudio _ => true
  | .normalizeAudio _ _ => true
  | .tagSave _ _ => true
  | _ => false

def isNormalizeEv : Ev → Bool
  | .normalizeVideo _ _ => true
  | .normalizeAudio _ _ => true
  | _ => false

/-!
## Path derivation (lines 290–304)
-/

def albumartist_fname (r : Record) : PyStr := sanitizeSegment r.albumartist

def album_fname (r : Record) : PyStr := sanitizeSegment r.album

def song_fname (r : Record) : PyStr := sanitizeSegment r.song

def albumartist_fpath (cfg : Config) (r : Record) : PyStr :=
  pyJoin cfg.outputFolder (albumartist_fname r)

def album_fpath (cfg : Config) (r : Record) : PyStr :=
  pyJoin (albumartist_fpath cfg r) (album_fname r)

def song_fpath (cfg : Config) (r : Record) : PyStr :=
  pyJoin (album_fpath cfg r) (song_fname r)

def audio_tmp_albumartist_fpath (cfg : Config) (r : Record) : PyStr :=
  pyJoin cfg.tempAudioFolder (albumartist_fname r)

def audio_tmp_album_fpath (cfg : Config) (r : Record) : PyStr :=
  pyJoin (audio_tmp_albumartist_fpath cfg r) (album_fname r)

def audio_tmp_fpath (cfg : Config) (r : Record) : PyStr :=
  pyJoin (audio_tmp_album_fpath cfg r) (song_fname r)

def video_tmp_albumartist_fpath (cfg : Config) (r : Record) : PyStr :=
  pyJoin cfg.tempVideoFolder (albumartist_fname r)

def video_tmp_album_fpath (cfg : Config) (r : Record) : PyStr :=
  pyJoin (video_tmp_albumartist_fpath cfg r) (album_fname r)

def video_tmp_fpath (cfg : Config) (r : Record) : PyStr :=
  pyJoin (video_tmp_album_fpath cfg r) (song_fname r)

/-!
## Per-record directory creation (lines 306–313)

`os.makedirs(d)` wrapped in `except OSError: if not os.path.isdir(d):
continue`.  The `continue` continues the *directory* loop (which would
advance anyway), so every outcome — created, already present, or failed —
lets record processing proceed.  Parent creation is elided: no later code
consults the directory map.
-/

def makedirsIgnore (orc : Oracle) (fs : FS) (d : PyStr) : FS :=
  if fs.dir d then fs
  else if orc.mkdirOk d then { fs with dir := fun q => if q = d then true else fs.dir q }
  else fs

def perRecordDirs (cfg : Config) (r : Record) : List PyStr :=
  [video_tmp_albumartist_fpath cfg r, video_tmp_album_fpath cfg r,
   audio_tmp_albumartist_fpath cfg r, audio_tmp_album_fpath cfg r,
   albumartist_fpath cfg r, album_fpath cfg r]

/-!
## The video branch (lines 322–408)
-/

/-- Step 1 (lines 332–378): skip the download when a temp video file exists;
otherwise invoke the downloader.  Returns the `videotmpfpath` the code
computes after this step, or the raised error. -/
def videoDownload (orc : Oracle) (r : Record) (cfg : Config) (converttomkv : Bool)
    (fm : FileMap) : FileMap × List Ev × Except Err PyStr :=
  match downloaded_video_file_exist fm (video_tmp_fpath cfg r) with
  | some f => (fm, [], .ok f)
  | none =>
    if orc.videoDLOk then
      let produced := if converttomkv then video_tmp_fpath cfg r ++ '.' :: "mkv".data
                      else video_tmp_fpath cfg r ++ '.' :: orc.videoExt
      (setFile fm produced orc.videoContent, [.downloadVideo r.dlink], .ok produced)
    else (fm, [.downloadVideo r.dlink], .error .dlYoutubeDLError)

/-- Step 2 (lines 381–408): derive the target name; skip when it exists;
for a non-youtube source copy the temp artifact, otherwise normalize. -/
def videoNormalize (orc : Oracle) (isyoutube converttomkv : Bool)
    (videotmpfpath songf : PyStr) (fm : FileMap) : FileMap × List Ev × Option Err :=
  let ext := if converttomkv then '.' :: "mkv".data else pySplitextExt videotmpfpath
  let videofpath := songf ++ ext
  if isfile fm videofpath then (fm, [], none)
  else if !isyoutube then
    (setFile fm videofpath ((fm videotmpfpath).getD 0),
     [.copyVideo videotmpfpath videofpath], none)
  else if orc.videoNormOk then
    (setFile fm videofpath orc.videoNormContent,
     [.normalizeVideo videotmpfpath videofpath], none)
  else (fm, [.normalizeVideo videotmpfpath videofpath], some .normalizeError)

/-- The whole video branch: with a final video artifact already present
(line 334) everything is skipped. -/
def videoSection (cfg : Config) (orc : Oracle) (r : Record)
    (isyoutube converttomkv : Bool) (fm : FileMap) : FileMap × List Ev × Option Err :=
  match downloaded_video_file_exist fm (song_fpath cfg r) with
  | some _ => (fm, [], none)
  | none =>
    match videoDownload orc r cfg converttomkv fm with
    | (fm1, evs1, .error e) => (fm1, evs1, some e)
    | (fm1, evs1, .ok videotmpfpath) =>
      match videoNormalize orc isyoutube converttomkv videotmpfpath (song_fpath cfg r) fm1 with
      | (fm2, evs2, err) => (fm2, evs1 ++ evs2, err)

/-!
## The audio branch (lines 410–497)
-/

/-- Lines 444–482: load the ID3 frame set, write the textual tags, attempt
`audio.save()` (its failure is caught and only logged), then — on *every*
path after the save attempt — `os.remove(audiofpath)` under
`except OSError: pass`. -/
def audioTagAndInvalidate (orc : Oracle) (audiotmpfpath audiofpath : PyStr)
    (fm : FileMap) : FileMap × List Ev × Option Err :=
  if !orc.id3LoadOk then (fm, [], some .id3Error)
  else
    let step := if orc.tagSaveOk
      then (setFile fm audiotmpfpath orc.taggedContent, [Ev.tagSave audiotmpfpath true])
      else (fm, [Ev.tagSave audiotmpfpath false])
    (removeFile step.1 audiofpath, step.2, none)

/-- Lines 420–482: skip the download when the temp artifact exists (tagging
is then skipped too); otherwise download and tag. -/
def audioDownloadAndTag (orc : Oracle) (r : Record) (audiotmpfpath audiofpath : PyStr)
    (fm : FileMap) : FileMap × List Ev × Option Err :=
  if isfile fm audiotmpfpath then (fm, [], none)
  else if orc.audioDLOk then
    match audioTagAndInvalidate orc audiotmpfpath audiofpath
        (setFile fm audiotmpfpath orc.audioContent) with
    | (fm2, evs2, err) => (fm2, Ev.downloadAudio r.dlink :: evs2, err)
  else (fm, [.downloadAudio r.dlink], some .dlYoutubeDLError)

/-- Lines 483–497: normalize the audio unless the final artifact exists. -/
def audioNormalize (orc : Oracle) (audiotmpfpath audiofpath : PyStr)
    (fm : FileMap) : FileMap × List Ev × Option Err :=
  if isfile fm audiofpath then (fm, [], none)
  else if orc.audioNormOk then
    (setFile fm audiofpath orc.audioNormContent,
     [.normalizeAudio audiotmpfpath audiofpath], none)
  else (fm, [.normalizeAudio audiotmpfpath audiofpath], some .normalizeError)

/-- The whole audio branch: with the final audio artifact already present
(line 417) everything is skipped. -/
def audioSection (cfg : Config) (orc : Oracle) (r : Record)
    (fm : FileMap) : FileMap × List Ev × Option Err :=
  let audiotmpfpath := audio_tmp_fpath cfg r ++ '.' :: "mp3".data
  let audiofpath := song_fpath cfg r ++ '.' :: "mp3".data
  if isfile fm audiofpath then (fm, [], none)
  else
    match audioDownloadAndTag orc r audiotmpfpath audiofpath fm with
    | (fm1, evs1, some e) => (fm1, evs1, some e)
    | (fm1, evs1, none) =>
      match audioNormalize orc audiotmpfpath audiofpath fm1 with
      | (fm2, evs2, err) => (fm2, evs1 ++ evs2, err)

/-!
## One record (lines 276–502)
-/

/-- The per-record `try` block (lines 321–498): video branch, then — only
when no exception is pending — the audio branch, which runs only for
youtube links (line 411). -/
def recordTry (cfg : Config) (orc : Oracle) (r : Record)
    (fm : FileMap) : FileMap × List Ev × Option Err :=
  let gd := get_dl_type r.dltype
  let isyoutube := isYoutubeLink r.dlink
  let converttomkv := cfg.convert_to_mkv || isyoutube
  match (if gd.2 then videoSection cfg orc r isyoutube converttomkv fm
         else (fm, [], none)) with
  | (fm1, evs1, some e) => (fm1, evs1, some e)
  | (fm1, evs1, none) =>
    match (if gd.1 && isyoutube then audioSection cfg orc r fm1
           else (fm1, [], none)) with
    | (fm2, evs2, err) => (fm2, evs1 ++ evs2, err)

/-- One loop iteration after field extraction: directory creation, then the
`try` block whose exceptions are caught and logged (lines 499–502). -/
def recordBody (cfg : Config) (orc : Oracle) (r : Record) (fs : FS) : FS × List Ev :=
  let fs1 := (perRecordDirs cfg r).foldl (makedirsIgnore orc) fs
  match recordTry cfg orc r fs1.file with
  | (fm, evs, err) =>
    ({ fs1 with file := fm },
     evs ++ (match err with | some _ => [Ev.errorLogged] | none => []))

/-- One loop iteration on a raw record row; `none` models the uncaught
`AttributeError` from stripping a missing field (lines 276–288, outside the
`try` block). -/
def processRecord (cfg : Config) (orc : Oracle) (row : List (Option PyStr))
    (fs : FS) : Option (FS × List Ev) :=
  (extractFields row).map (fun r => recordBody cfg orc r fs)

/-- The record loop of `DLYoutube.main`; the `Bool` reports whether an
uncaught exception aborted the loop. -/
def processAll (cfg : Config) (orcs : Nat → Oracle) :
    List (List (Option PyStr)) → FS → Nat → FS × List Ev × Bool
  | [], fs, _ => (fs, [], false)
  | row :: rest, fs, idx =>
    match processRecord cfg (orcs idx) row fs with
    | none => (fs, [Ev.recordStart idx], true)
    | some (fs1, evs) =>
      match processAll cfg orcs rest fs1 (idx + 1) with
      | (fs2, evs2, fatal) => (fs2, Ev.recordStart idx :: (evs ++ evs2), fatal)

/-!
## Construction and the top-level driver (lines 114–181, 504–548)
-/

/-- How reading the input file can fail. -/
inductive ReadErr where
  | fileNotFound
  | otherRead
  deriving DecidableEq

/-- Constructor-time fatal conditions. -/
inductive InitErr where
  /-- `DLFolderNotFound` (line 133) -/
  | outputFolderNotFound
  /-- `FileNotFoundError` re-raised at lines 138–140 -/
  | inputFileNotFound
  /-- any other input-read error re-raised at lines 141–143 -/
  | inputReadError
  /-- `DLFolderError` creating the temp folders (lines 150–155) -/
  | tempFolderError
  deriving DecidableEq

/-- `DLYoutube.__init__`: output-folder check, input parse (re-raising read
errors), temp-folder creation.  Returns the parsed record rows. -/
def DLYoutube_init (outputFolderIsDir : Bool)
    (readResult : Except ReadErr (List PyStr)) (tempMkdirOk : Bool) :
    Except InitErr (List (List (Option PyStr))) :=
  if !outputFolderIsDir then .error .outputFolderNotFound
  else match readResult with
    | .error .fileNotFound => .error .inputFileNotFound
    | .error .otherRead => .error .inputReadError
    | .ok lines =>
      if !tempMkdirOk then .error .tempFolderError
      else .ok (parse_input_list lines)

/-- `__main__` (lines 504–548): construct and run; any constructor failure
or an `AttributeError` escaping the record loop ends with exit code 1,
normal completion (caught per-record errors included) with exit code 0. -/
def runProgram (cfg : Config) (outputFolderIsDir : Bool)
    (readResult : Except ReadErr (List PyStr)) (tempMkdirOk : Bool)
    (orcs : Nat → Oracle) (fs : FS) : Nat × List Ev :=
  match DLYoutube_init outputFolderIsDir readResult tempMkdirOk with
  | .error _ => (1, [])
  | .ok rows =>
    match processAll cfg orcs rows fs 0 with
    | (_, evs, fatal) => (if fatal then 1 else 0, evs)

/-!
## Concrete fixtures
-/

/-- A concrete configuration (no mkv conversion requested). -/
def cfgW : Config := ⟨"out".data, "tv".data, "ta".data, "cov".data, false⟩

/-- The same configuration with mkv conversion requested. -/
def cfgWmkv : Config := ⟨"out".data, "tv".data, "ta".data, "cov".data, true⟩

/-- An oracle where every external call succeeds. -/
def orcW : Oracle :=
  ⟨fun _ => true, true, "mp4".data, 10, true, 11, true, 20, true, true, 21, true, 22⟩

/-- `orcW` with a failing video download. -/
def orcWdlFail : Oracle :=
  ⟨fun _ => true, false, "mp4".data, 10, true, 11, true, 20, true, true, 21, true, 22⟩

/-- `orcW` with a failing `audio.save()`. -/
def orcWtagFail : Oracle :=
  ⟨fun _ => true, true, "mp4".data, 10, true, 11, true, 20, true, false, 21, true, 22⟩

/-- `orcW` with failing directory creation. -/
def orcWmkdirFail : Oracle :=
  ⟨fun _ => false, true, "mp4".data, 10, true, 11, true, 20, true, true, 21, true, 22⟩

/-- A youtube record requesting both audio and video. -/
def rW : Record := ⟨"av".data, "https://youtube.com/w".data, "AA".data, "AL".data,
  "T".data, "AR".data, "G".data, "2020".data, "c.jpg".data⟩

/-- A non-host record requesting both audio and video. -/
def rWnonhost : Record := ⟨"av".data, "https://vimeo.com/w".data, "AA".data, "AL".data,
  "T".data, "AR".data, "G".data, "2020".data, "c.jpg".data⟩

/-- A non-host record whose flag requests audio only. -/
def rWaudio : Record := ⟨"a".data, "https://vimeo.com/w".data, "AA".data, "AL".data,
  "T".data, "AR".data, "G".data, "2020".data, "c.jpg".data⟩

/-- Empty disk. -/
def fsEmpty : FS := ⟨fun _ => none, fun _ => false⟩

/-- Disk with both final artifacts of `rW` already present. -/
def fsBothFinal : FS :=
  ⟨fun p => if p = "out/AA/AL/T.mp4".data then some 1
    else if p = "out/AA/AL/T.mp3".data then some 2 else none, fun _ => false⟩

/-- A disk holding only a stale final audio artifact. -/
def fmStaleFinal : FileMap := fun p => if p = "out/s.mp3".data then some 7 else none

/-- Input: two well-formed youtube rows. -/
def linesW3 : List PyStr :=
  ["v, https://youtube.com/a, AA, AL, T, AR, G, 2020, c.jpg".data,
   "v, https://youtube.com/b, AA, AL, T2, AR, G, 2020, c.jpg".data]

/-- Input: a one-column row followed by a well-formed row. -/
def linesW9 : List PyStr :=
  ["justalink".data,
   "v, https://youtube.com/b, AA, AL, T2, AR, G, 2020, c.jpg".data]

theorem sanitizeAux_idem (l : PyStr) : ∀ b, sanitizeAux (sanitizeAux l b) b = sanitizeAux l b := by
  induction l with
  | nil => intro b; rfl
  | cons c cs ih =>
    intro b
    by_cases hc : c.isAlphanum
    · simp [sanitizeAux, hc, ih false]
    · cases b with
      | true => simp [sanitizeAux, hc, ih true]
      | false =>
        have h_ : ('_' : Char).isAlphanum = false := by decide
        simp [sanitizeAux, hc, h_, ih true]

theorem sanitizeAux_all (l : PyStr) :
    ∀ b, (sanitizeAux l b).all (fun c => c.isAlphanum || c == '_') = true := by
  induction l with
  | nil => intro b; rfl
  | cons c cs ih =>
    intro b
    by_cases hc : c.isAlphanum
    · simp [sanitizeAux, hc, ih false]
    · cases b with
      | true => simpa [sanitizeAux, hc] using ih true
      | false => simp [sanitizeAux, hc, ih true]

/-- When the flag is `true`, a pending run is being skipped, so the first
emitted character (if any) is alphanumeric. -/
theorem sanitizeAux_true_head (l : PyStr) :
    ∀ c, (sanitizeAux l true).head? = some c → c.isAlphanum = true := by
  induction l with
  | nil => intro c h; simp [sanitizeAux] at h
  | cons a as ih =>
    intro c h
    by_cases ha : a.isAlphanum
    · simp only [sanitizeAux, ha, if_true, List.head?_cons, Option.some.injEq] at h
      exact h ▸ ha
    · simp only [sanitizeAux, ha, if_false, if_true] at h
      exact ih c h

theorem noTwoUnderscores_cons (c : Char) (xs : PyStr)
    (h1 : noTwoUnderscores xs = true)
    (h2 : ∀ d, xs.head? = some d → ¬(c = '_' ∧ d = '_')) :
    noTwoUnderscores (c :: xs) = true := by
  cases xs with
  | nil => rfl
  | cons d rest =>
    have hd := h2 d rfl
    have hcd : (c == '_' && d == '_') = false := by
      by_cases hc : c = '_'
      · by_cases hdd : d = '_'
        · exact absurd ⟨hc, hdd⟩ hd
        · simp [hdd]
      · simp [hc]
    simp [noTwoUnderscores, hcd, h1]

theorem sanitizeAux_noTwo (l : PyStr) : ∀ b, noTwoUnderscores (sanitizeAux l b) = true := by
  induction l with
  | nil => intro b; rfl
  | cons c cs ih =>
    intro b
    by_cases hc : c.isAlphanum
    · simp only [sanitizeAux, hc, if_true]
      refine noTwoUnderscores_cons _ _ (ih false) ?_
      intro d _ hcd
      rw [hcd.1] at hc
      exact absurd hc (by decide)
    · cases b with
      | true => simp only [sanitizeAux, hc, if_false, if_true]; exact ih true
      | false =>
        simp only [sanitizeAux, hc, if_false, if_true]
        refine noTwoUnderscores_cons _ _ (ih true) ?_
        intro d hd hcd
        have := sanitizeAux_true_head cs d hd
        rw [hcd.2] at this
        exact absurd this (by decide)

/-- Claim C2: the path-segment sanitizer
(`re.sub('[^0-9a-zA-Z]+', '_', ·)`, `DLYoutube.main` lines 290–296) is a
pure function that is idempotent, and for every input its output contains
only alphanumerics and underscores, with no two consecutive underscores. -/
theorem C2_sanitizer_idempotent_charset (s : PyStr) :
    sanitizeSegment (sanitizeSegment s) = sanitizeSegment s ∧
    (sanitizeSegment s).all (fun c => c.isAlphanum || c == '_') = true ∧
    noTwoUnderscores (sanitizeSegment s) = true :=
  ⟨sanitizeAux_idem s false, sanitizeAux_all s false, sanitizeAux_noTwo s false⟩

theorem takeWhile_append_stop {p : Char → Bool} (base : PyStr) (c : Char) (note : PyStr)
    (hb : ∀ x ∈ base, p x = true) (hc : p c = false) :
    (base ++ c :: note).takeWhile p = base := by
  induction base with
  | nil => simp [List.takeWhile_cons, hc]
  | cons a as ih =>
    have ha : p a = true := hb a (by simp)
    simp only [List.cons_append, List.takeWhile_cons, ha, if_true]
    rw [ih (fun x hx => hb x (by simp [hx]))]

theorem takeWhile_of_all {p : Char → Bool} (l : PyStr) (h : ∀ x ∈ l, p x = true) :
    l.takeWhile p = l := by
  induction l with
  | nil => rfl
  | cons a as ih =>
    have ha : p a = true := h a (by simp)
    simp only [List.takeWhile_cons, ha, if_true]
    rw [ih (fun x hx => h x (by simp [hx]))]

theorem dropWhile_append_of_all {p : Char → Bool} (l1 l2 : PyStr)
    (h : ∀ x ∈ l1, p x = true) :
    (l1 ++ l2).dropWhile p = l2.dropWhile p := by
  induction l1 with
  | nil => rfl
  | cons a as ih =>
    have ha : p a = true := h a (by simp)
    simp only [List.cons_append, List.dropWhile_cons, ha, if_true]
    exact ih (fun x hx => h x (by simp [hx]))

/-- Appending trailing whitespace does not change the stripped value. -/
theorem pyStrip_append_ws (base sp : PyStr) (hsp : ∀ c ∈ sp, c.isWhitespace = true) :
    pyStrip (base ++ sp) = pyStrip base := by
  unfold pyStrip
  rw [List.reverse_append, dropWhile_append_of_all sp.reverse base.reverse
    (fun x hx => hsp x (List.mem_reverse.mp hx))]

/-- Claim C7: the input parser strips everything from a `#` marker to end of
line before field-splitting (a trailing ` # note` comment is invisible to
parsing), and it discards lines that are blank after stripping. -/
theorem C7_comment_stripping :
    (∀ base sp note : PyStr, (∀ c ∈ base, c ≠ '#') → (∀ c ∈ sp, c.isWhitespace = true) →
      parse_input_list [base ++ sp ++ '#' :: note] = parse_input_list [base]) ∧
    (∀ line : PyStr, pyStrip (line.takeWhile (fun c => c != '#')) = [] →
      parse_input_list [line] = []) := by
  constructor
  · intro base sp note hb hsp
    have hkey : decommentLine (base ++ sp ++ '#' :: note) = decommentLine base := by
      unfold decommentLine
      have hbs : ∀ x ∈ base ++ sp, (x != '#') = true := by
        intro x hx
        rcases List.mem_append.mp hx with h | h
        · simpa using hb x h
        · have := hsp x h
          have hxne : x ≠ '#' := by
            intro he; rw [he] at this; exact absurd this (by decide)
          simpa using hxne
      rw [takeWhile_append_stop (base ++ sp) '#' note hbs (by decide)]
      rw [takeWhile_of_all base (fun x hx => by simpa using hb x hx)]
      rw [pyStrip_append_ws base sp hsp]
    unfold parse_input_list
    simp only [List.filterMap_cons, List.filterMap_nil]
    rw [hkey]
  · intro line hline
    unfold parse_input_list decommentLine
    simp [List.filterMap_cons, hline]

/-- Witness for C7 at the spec's own example line. -/
theorem C7_comment_stripping_witness :
    parse_input_list
        ["https://x/y, A, B, C, D, E, 2020, cover.jpg".data ++ " ".data ++ '#' :: " note".data]
      = parse_input_list ["https://x/y, A, B, C, D, E, 2020, cover.jpg".data] ∧
    parse_input_list ["   ".data] = [] :=
  ⟨C7_comment_stripping.1 _ _ _ (by decide) (by decide),
   C7_comment_stripping.2 _ (by decide)⟩

/-!
## Path facts
-/

theorem videoExt_facts (x : PyStr) (hx : x ∈ VIDEO_FILE_EXT) :
    x ≠ [] ∧ x.getLast? ≠ some '3' ∧ x ≠ "mp3".data := by
  fin_cases hx <;> exact ⟨by decide, by decide, by decide⟩

theorem getLast?_ext_append (x : PyStr) (c : Char) (t : PyStr) :
    (x ++ c :: t).getLast? = (c :: t).getLast? :=
  List.getLast?_append_of_ne_nil x (by simp)

theorem ne_of_getLast (p q : PyStr) (h : p.getLast? ≠ q.getLast?) : p ≠ q :=
  fun he => h (he ▸ rfl)

theorem append_ext_ne_self (x : PyStr) (c : Char) (t : PyStr) : x ++ c :: t ≠ x := by
  intro h
  have := congrArg List.length h
  simp at this

theorem ext_append_ne (x : PyStr) (a b : PyStr) (h : a ≠ b) :
    x ++ '.' :: a ≠ x ++ '.' :: b := by
  intro he
  exact h (by simpa using List.append_cancel_left he)

theorem head_of_takeWhile {p : Char → Bool} (l : PyStr) (a : Char) (rest : PyStr)
    (h : l.takeWhile p = a :: rest) : l.head? = some a := by
  cases l with
  | nil => simp at h
  | cons x xs =>
    rw [List.takeWhile_cons] at h
    by_cases hx : p x = true
    · rw [if_pos hx] at h
      injection h with h1 _
      simp [h1]
    · rw [if_neg hx] at h; cases h

/-- The extension `os.path.splitext` returns is empty, ends in the dot
character, or ends in the same character as its input. -/
theorem pySplitextExt_cases (cs : PyStr) :
    pySplitextExt cs = [] ∨ (pySplitextExt cs).getLast? = some '.' ∨
      (pySplitextExt cs).getLast? = cs.getLast? := by
  simp only [pySplitextExt]
  split
  · split
    · exact Or.inl rfl
    · right
      cases hsuf : cs.reverse.takeWhile (fun c : Char => !(c == '.' || c == '/')) with
      | nil => exact Or.inl rfl
      | cons a rest =>
        right
        have h1 : ('.' :: (a :: rest).reverse).getLast? = some a := by
          rw [List.reverse_cons, ← List.cons_append, List.getLast?_concat]
        rw [h1, ← List.head?_reverse, head_of_takeWhile cs.reverse a rest hsuf]
  · exact Or.inl rfl

theorem dvfe_some (fm : FileMap) (base f : PyStr)
    (h : downloaded_video_file_exist fm base = some f) :
    ∃ x ∈ VIDEO_FILE_EXT, f = base ++ '.' :: x := by
  unfold downloaded_video_file_exist at h
  have hmem := List.mem_of_find?_eq_some h
  rcases List.mem_map.mp hmem with ⟨x, hx, hfx⟩
  exact ⟨x, hx, hfx.symm⟩

theorem dvfe_none (fm : FileMap) (base : PyStr)
    (h : downloaded_video_file_exist fm base = none) :
    ∀ x ∈ VIDEO_FILE_EXT, isfile fm (base ++ '.' :: x) = false := by
  intro x hx
  unfold downloaded_video_file_exist at h
  have := List.find?_eq_none.mp h (base ++ '.' :: x) (List.mem_map_of_mem _ hx)
  simpa using this

theorem setFile_ne (fm : FileMap) (p : PyStr) (v : Nat) (q : PyStr) (h : q ≠ p) :
    setFile fm p v q = fm q := by simp [setFile, h]

theorem removeFile_ne (fm : FileMap) (p q : PyStr) (h : q ≠ p) :
    removeFile fm p q = fm q := by simp [removeFile, h]

theorem foldl_makedirs_file (orc : Oracle) (l : List PyStr) (fs : FS) :
    (l.foldl (makedirsIgnore orc) fs).file = fs.file := by
  induction l generalizing fs with
  | nil => rfl
  | cons d ds ih =>
    rw [List.foldl_cons, ih]
    unfold makedirsIgnore
    split
    · rfl
    · split <;> rfl

/-!
## Event-shape lemmas
-/

theorem videoDownload_events (orc : Oracle) (r : Record) (cfg : Config) (cm : Bool)
    (fm : FileMap) :
    ∀ ev ∈ (videoDownload orc r cfg cm fm).2.1, ev = Ev.downloadVideo r.dlink := by
  intro ev he
  simp only [videoDownload] at he
  split at he
  · simp at he
  · split at he <;> simp at he <;> exact he

theorem videoNormalize_events (orc : Oracle) (iy cm : Bool) (vt songf : PyStr)
    (fm : FileMap) :
    ∀ ev ∈ (videoNormalize orc iy cm vt songf fm).2.1, isVideoStep ev = true := by
  intro ev he
  simp only [videoNormalize] at he
  split_ifs at he
  all_goals simp at he
  all_goals (subst he; rfl)

theorem videoSection_events (cfg : Config) (orc : Oracle) (r : Record) (iy cm : Bool)
    (fm : FileMap) :
    ∀ ev ∈ (videoSection cfg orc r iy cm fm).2.1, isVideoStep ev = true := by
  intro ev he
  simp only [videoSection] at he
  split at he
  · simp at he
  · split at he
    · rename_i fm1 evs1 err heq
      have h1 : ev ∈ (videoDownload orc r cfg cm fm).2.1 := by rw [heq]; exact he
      rw [videoDownload_events orc r cfg cm fm ev h1]; rfl
    · rename_i fm1 evs1 vt heq
      simp only [List.mem_append] at he
      rcases he with h1 | h2
      · have : ev ∈ (videoDownload orc r cfg cm fm).2.1 := by rw [heq]; exact h1
        rw [videoDownload_events orc r cfg cm fm ev this]; rfl
      · exact videoNormalize_events orc iy cm vt (song_fpath cfg r) fm1 ev h2

theorem audioTagAndInvalidate_events (orc : Oracle) (at_ af : PyStr) (fm : FileMap) :
    ∀ ev ∈ (audioTagAndInvalidate orc at_ af fm).2.1, isAudioStep ev = true := by
  intro ev he
  simp only [audioTagAndInvalidate] at he
  split_ifs at he
  all_goals simp at he
  all_goals (subst he; rfl)

theorem audioDownloadAndTag_events (orc : Oracle) (r : Record) (at_ af : PyStr)
    (fm : FileMap) :
    ∀ ev ∈ (audioDownloadAndTag orc r at_ af fm).2.1, isAudioStep ev = true := by
  intro ev he
  simp only [audioDownloadAndTag] at he
  split_ifs at he
  · simp at he
  · simp only [List.mem_cons] at he
    rcases he with h1 | h2
    · rw [h1]; rfl
    · exact audioTagAndInvalidate_events orc at_ af _ ev h2
  · simp at he; subst he; rfl

theorem audioNormalize_events (orc : Oracle) (at_ af : PyStr) (fm : FileMap) :
    ∀ ev ∈ (audioNormalize orc at_ af fm).2.1, isAudioStep ev = true := by
  intro ev he
  simp only [audioNormalize] at he
  split_ifs at he
  all_goals simp at he
  all_goals (subst he; rfl)

theorem audioSection_events (cfg : Config) (orc : Oracle) (r : Record) (fm : FileMap) :
    ∀ ev ∈ (audioSection cfg orc r fm).2.1, isAudioStep ev = true := by
  intro ev he
  simp only [audioSection] at he
  split at he
  · simp at he
  · split at he
    · rename_i fm1 evs1 err heq
      have h1 : ev ∈ (audioDownloadAndTag orc r (audio_tmp_fpath cfg r ++ '.' :: "mp3".data)
          (song_fpath cfg r ++ '.' :: "mp3".data) fm).2.1 := by rw [heq]; exact he
      exact audioDownloadAndTag_events orc r _ _ fm ev h1
    · rename_i fm1 evs1 heq
      simp only [List.mem_append] at he
      rcases he with h1 | h2
      · have h3 : ev ∈ (audioDownloadAndTag orc r (audio_tmp_fpath cfg r ++ '.' :: "mp3".data)
            (song_fpath cfg r ++ '.' :: "mp3".data) fm).2.1 := by rw [heq]; exact h1
        exact audioDownloadAndTag_events orc r _ _ fm ev h3
      · exact audioNormalize_events orc (audio_tmp_fpath cfg r ++ '.' :: "mp3".data)
          (song_fpath cfg r ++ '.' :: "mp3".data) fm1 ev h2

theorem isVideoStep_not_audio (ev : Ev) (h : isVideoStep ev = true) :
    isAudioStep ev = false := by
  cases ev <;> first | rfl | (exact absurd h (by simp [isVideoStep]))

theorem isAudioStep_not_video (ev : Ev) (h : isAudioStep ev = true) :
    isVideoStep ev = false := by
  cases ev <;> first | rfl | (exact absurd h (by simp [isAudioStep]))

/-!
## File-preservation lemmas
-/

theorem getLast?_cons_ne (c : Char) (l : PyStr) (h : l ≠ []) :
    (c :: l).getLast? = l.getLast? := by
  have := @List.getLast?_append_of_ne_nil _ [c] l h
  simpa using this

theorem audioTagAndInvalidate_preserve (orc : Oracle) (at_ af : PyStr) (fm : FileMap)
    (p : PyStr) (h1 : p ≠ at_) (h2 : p ≠ af) :
    (audioTagAndInvalidate orc at_ af fm).1 p = fm p := by
  simp only [audioTagAndInvalidate]
  split_ifs <;>
    simp [removeFile_ne _ _ _ h2, setFile_ne _ _ _ _ h1]

theorem audioDownloadAndTag_preserve (orc : Oracle) (r : Record) (at_ af : PyStr)
    (fm : FileMap) (p : PyStr) (h1 : p ≠ at_) (h2 : p ≠ af) :
    (audioDownloadAndTag orc r at_ af fm).1 p = fm p := by
  simp only [audioDownloadAndTag]
  split_ifs
  · rfl
  · simp only
    rw [audioTagAndInvalidate_preserve orc at_ af _ p h1 h2, setFile_ne _ _ _ _ h1]
  · rfl

theorem audioNormalize_preserve (orc : Oracle) (at_ af : PyStr) (fm : FileMap)
    (p : PyStr) (h2 : p ≠ af) :
    (audioNormalize orc at_ af fm).1 p = fm p := by
  simp only [audioNormalize]
  split_ifs <;> simp [setFile_ne _ _ _ _ h2]

theorem audioSection_preserve (cfg : Config) (orc : Oracle) (r : Record) (fm : FileMap)
    (p : PyStr)
    (h1 : p ≠ audio_tmp_fpath cfg r ++ '.' :: "mp3".data)
    (h2 : p ≠ song_fpath cfg r ++ '.' :: "mp3".data) :
    (audioSection cfg orc r fm).1 p = fm p := by
  simp only [audioSection]
  split
  · rfl
  · split
    · rename_i fm1 evs1 err heq
      have hA := audioDownloadAndTag_preserve orc r
        (audio_tmp_fpath cfg r ++ '.' :: "mp3".data)
        (song_fpath cfg r ++ '.' :: "mp3".data) fm p h1 h2
      rw [heq] at hA
      simpa using hA
    · rename_i fm1 evs1 heq
      have hA := audioDownloadAndTag_preserve orc r
        (audio_tmp_fpath cfg r ++ '.' :: "mp3".data)
        (song_fpath cfg r ++ '.' :: "mp3".data) fm p h1 h2
      rw [heq] at hA
      simp only at hA ⊢
      rw [audioNormalize_preserve orc _ _ fm1 p h2, hA]

theorem videoDownload_preserve (orc : Oracle) (r : Record) (cfg : Config) (cm : Bool)
    (fm : FileMap) (p : PyStr)
    (h1 : p ≠ video_tmp_fpath cfg r ++ '.' :: "mkv".data)
    (h2 : p ≠ video_tmp_fpath cfg r ++ '.' :: orc.videoExt) :
    (videoDownload orc r cfg cm fm).1 p = fm p := by
  simp only [videoDownload]
  split
  · rfl
  · split_ifs <;> simp [setFile_ne _ _ _ _ h1, setFile_ne _ _ _ _ h2]

theorem videoNormalize_preserve (orc : Oracle) (iy cm : Bool) (vt songf : PyStr)
    (fm : FileMap) (p : PyStr)
    (h1 : p ≠ songf ++ '.' :: "mkv".data)
    (h2 : p ≠ songf ++ pySplitextExt vt) :
    (videoNormalize orc iy cm vt songf fm).1 p = fm p := by
  simp only [videoNormalize]
  cases cm <;> split_ifs <;>
    simp [setFile_ne _ _ _ _ h1, setFile_ne _ _ _ _ h2]

theorem videoDownload_ok_shape (orc : Oracle) (r : Record) (cfg : Config) (cm : Bool)
    (fm fm1 : FileMap) (evs1 : List Ev) (vt : PyStr)
    (h : videoDownload orc r cfg cm fm = (fm1, evs1, Except.ok vt)) :
    (∃ x ∈ VIDEO_FILE_EXT, vt = video_tmp_fpath cfg r ++ '.' :: x) ∨
    vt = video_tmp_fpath cfg r ++ '.' :: "mkv".data ∨
    vt = video_tmp_fpath cfg r ++ '.' :: orc.videoExt := by
  simp only [videoDownload] at h
  split at h
  · rename_i f heqD
    simp only [Prod.mk.injEq, Except.ok.injEq] at h
    obtain ⟨x, hx, hfx⟩ := dvfe_some fm (video_tmp_fpath cfg r) f heqD
    exact Or.inl ⟨x, hx, h.2.2 ▸ hfx⟩
  · split_ifs at h with hdl hcm
    · simp only [Prod.mk.injEq, Except.ok.injEq] at h
      exact Or.inr (Or.inl h.2.2.symm)
    · simp only [Prod.mk.injEq, Except.ok.injEq] at h
      exact Or.inr (Or.inr h.2.2.symm)
    · simp at h

/-- If the downloader produces a file with a video extension, the video
branch never touches the final audio artifact. -/
theorem videoSection_preserves_audiofinal (cfg : Config) (orc : Oracle) (r : Record)
    (iy cm : Bool) (fm : FileMap)
    (hve : orc.videoExt ∈ VIDEO_FILE_EXT) :
    (videoSection cfg orc r iy cm fm).1 (song_fpath cfg r ++ '.' :: "mp3".data)
      = fm (song_fpath cfg r ++ '.' :: "mp3".data) := by
  obtain ⟨hveNil, hve3, -⟩ := videoExt_facts orc.videoExt hve
  have hp3 : (song_fpath cfg r ++ '.' :: "mp3".data).getLast? = some '3' := by
    rw [getLast?_ext_append]; rfl
  have h1 : song_fpath cfg r ++ '.' :: "mp3".data
      ≠ video_tmp_fpath cfg r ++ '.' :: "mkv".data := by
    apply ne_of_getLast
    rw [hp3, getLast?_ext_append]
    decide
  have h2 : song_fpath cfg r ++ '.' :: "mp3".data
      ≠ video_tmp_fpath cfg r ++ '.' :: orc.videoExt := by
    apply ne_of_getLast
    rw [hp3, getLast?_ext_append, getLast?_cons_ne '.' orc.videoExt hveNil]
    exact fun hc => hve3 hc.symm
  simp only [videoSection]
  split
  · rfl
  · split
    · rename_i fm1 evs1 err heq
      have hpres := videoDownload_preserve orc r cfg cm fm _ h1 h2
      rw [heq] at hpres
      simpa using hpres
    · rename_i fm1 evs1 vt heq
      have hpres := videoDownload_preserve orc r cfg cm fm _ h1 h2
      rw [heq] at hpres
      simp only at hpres ⊢
      have hvt3 : vt.getLast? ≠ some '3' := by
        rcases videoDownload_ok_shape orc r cfg cm fm fm1 evs1 vt heq with
          ⟨x, hx, hvx⟩ | hvx | hvx
        · obtain ⟨hxNil, hx3, -⟩ := videoExt_facts x hx
          rw [hvx, getLast?_ext_append, getLast?_cons_ne '.' x hxNil]
          exact hx3
        · rw [hvx, getLast?_ext_append]; decide
        · rw [hvx, getLast?_ext_append, getLast?_cons_ne '.' orc.videoExt hveNil]
          exact hve3
      have hN1 : song_fpath cfg r ++ '.' :: "mp3".data
          ≠ song_fpath cfg r ++ '.' :: "mkv".data :=
        ext_append_ne _ _ _ (by decide)
      have hN2 : song_fpath cfg r ++ '.' :: "mp3".data
          ≠ song_fpath cfg r ++ pySplitextExt vt := by
        rcases pySplitextExt_cases vt with hc | hc | hc
        · rw [hc, List.append_nil]
          exact append_ext_ne_self _ _ _
        · apply ne_of_getLast
          rw [hp3, List.getLast?_append_of_ne_nil _ (by
            intro hnil; rw [hnil] at hc; simp at hc), hc]
          decide
        · rcases hext : pySplitextExt vt with _ | ⟨c, t⟩
          · rw [List.append_nil]
            exact append_ext_ne_self _ _ _
          · apply ne_of_getLast
            rw [hp3, List.getLast?_append_of_ne_nil _ (by simp), ← hext, hc]
            exact fun hcc => hvt3 hcc.symm
      rw [videoNormalize_preserve orc iy cm vt (song_fpath cfg r) fm1 _ hN1 hN2, hpres]

/-!
## Skip lemmas and record-level reductions
-/

theorem videoSection_skip (cfg : Config) (orc : Oracle) (r : Record) (iy cm : Bool)
    (fm : FileMap) (f : PyStr)
    (h : downloaded_video_file_exist fm (song_fpath cfg r) = some f) :
    videoSection cfg orc r iy cm fm = (fm, [], none) := by
  simp only [videoSection, h]

theorem audioSection_skip (cfg : Config) (orc : Oracle) (r : Record) (fm : FileMap)
    (h : isfile fm (song_fpath cfg r ++ '.' :: "mp3".data) = true) :
    audioSection cfg orc r fm = (fm, [], none) := by
  simp only [audioSection, h, if_true]

theorem recordBody_file (cfg : Config) (orc : Oracle) (r : Record) (fs : FS) :
    (recordBody cfg orc r fs).1.file = (recordTry cfg orc r fs.file).1 := by
  simp only [recordBody, foldl_makedirs_file]

theorem recordBody_events_eq (cfg : Config) (orc : Oracle) (r : Record) (fs : FS) :
    (recordBody cfg orc r fs).2 = (recordTry cfg orc r fs.file).2.1 ++
      (match (recordTry cfg orc r fs.file).2.2 with
       | some _ => [Ev.errorLogged] | none => []) := by
  simp only [recordBody, foldl_makedirs_file]

/-- With the final video artifact present at entry, the whole `try` block
reduces to the audio branch alone. -/
theorem recordTry_video_skip (cfg : Config) (orc : Oracle) (r : Record) (fm : FileMap)
    (f : PyStr)
    (hfin : downloaded_video_file_exist fm (song_fpath cfg r) = some f) :
    (recordTry cfg orc r fm).1 = (if (get_dl_type r.dltype).1 && isYoutubeLink r.dlink
        then (audioSection cfg orc r fm).1 else fm) ∧
    (recordTry cfg orc r fm).2.1 = (if (get_dl_type r.dltype).1 && isYoutubeLink r.dlink
        then (audioSection cfg orc r fm).2.1 else []) ∧
    (recordTry cfg orc r fm).2.2 = (if (get_dl_type r.dltype).1 && isYoutubeLink r.dlink
        then (audioSection cfg orc r fm).2.2 else none) := by
  have hvs : ∀ iy cm, videoSection cfg orc r iy cm fm = (fm, [], none) :=
    fun iy cm => videoSection_skip cfg orc r iy cm fm f hfin
  simp only [recordTry, hvs, ite_self]
  by_cases hga : ((get_dl_type r.dltype).1 && isYoutubeLink r.dlink) = true <;>
    simp [hga]

/-- With the final audio artifact present at entry, the `try` block performs
no audio step and leaves the final audio artifact as it was. -/
theorem recordTry_audio_skip (cfg : Config) (orc : Oracle) (r : Record) (fm : FileMap)
    (hve : orc.videoExt ∈ VIDEO_FILE_EXT)
    (hfin : isfile fm (song_fpath cfg r ++ '.' :: "mp3".data) = true) :
    ((recordTry cfg orc r fm).1 (song_fpath cfg r ++ '.' :: "mp3".data)
       = fm (song_fpath cfg r ++ '.' :: "mp3".data)) ∧
    ∀ ev ∈ (recordTry cfg orc r fm).2.1, isVideoStep ev = true := by
  simp only [recordTry]
  split
  · rename_i fm1 evs1 err heq
    split at heq
    · constructor
      · have hp := videoSection_preserves_audiofinal cfg orc r (isYoutubeLink r.dlink)
          (cfg.convert_to_mkv || isYoutubeLink r.dlink) fm hve
        rw [heq] at hp
        simpa using hp
      · intro ev hev
        exact videoSection_events cfg orc r (isYoutubeLink r.dlink)
          (cfg.convert_to_mkv || isYoutubeLink r.dlink) fm ev (by rw [heq]; exact hev)
    · simp at heq
  · rename_i fm1 evs1 heq
    have hfm1 : fm1 (song_fpath cfg r ++ '.' :: "mp3".data)
        = fm (song_fpath cfg r ++ '.' :: "mp3".data) := by
      split at heq
      · have hp := videoSection_preserves_audiofinal cfg orc r (isYoutubeLink r.dlink)
          (cfg.convert_to_mkv || isYoutubeLink r.dlink) fm hve
        rw [heq] at hp
        simpa using hp
      · simp only [Prod.mk.injEq] at heq
        rw [← heq.1]
    have hevs1 : ∀ ev ∈ evs1, isVideoStep ev = true := by
      split at heq
      · intro ev hev
        exact videoSection_events cfg orc r (isYoutubeLink r.dlink)
          (cfg.convert_to_mkv || isYoutubeLink r.dlink) fm ev (by rw [heq]; exact hev)
      · simp only [Prod.mk.injEq] at heq
        rw [← heq.2.1]
        intro ev hev
        simp at hev
    have hisf : isfile fm1 (song_fpath cfg r ++ '.' :: "mp3".data) = true := by
      rw [isfile, hfm1]
      exact hfin
    by_cases hga : ((get_dl_type r.dltype).1 && isYoutubeLink r.dlink) = true
    · rw [if_pos hga, audioSection_skip cfg orc r fm1 hisf]
      exact ⟨hfm1, by simpa using hevs1⟩
    · rw [if_neg hga]
      exact ⟨hfm1, by simpa using hevs1⟩

/-- Claim C1: for every record and target kind, when the final artifact of
that kind already exists at the start of the record's processing, that
kind's downloader and normalizer (and tag writer) are never invoked and the
existing final artifact is left unchanged.  (The downloader is assumed to
produce a file with one of the recognized video extensions.) -/
theorem C1_final_exists_skip (cfg : Config) (orc : Oracle) (r : Record) (fs : FS)
    (f : PyStr) (hve : orc.videoExt ∈ VIDEO_FILE_EXT) :
    (downloaded_video_file_exist fs.file (song_fpath cfg r) = some f →
      (recordBody cfg orc r fs).2.all (fun ev => !isVideoStep ev) = true ∧
      (recordBody cfg orc r fs).1.file f = fs.file f) ∧
    (isfile fs.file (song_fpath cfg r ++ '.' :: "mp3".data) = true →
      (recordBody cfg orc r fs).2.all (fun ev => !isAudioStep ev) = true ∧
      (recordBody cfg orc r fs).1.file (song_fpath cfg r ++ '.' :: "mp3".data)
        = fs.file (song_fpath cfg r ++ '.' :: "mp3".data)) := by
  constructor
  · intro hfin
    obtain ⟨x, hx, hfx⟩ := dvfe_some fs.file (song_fpath cfg r) f hfin
    obtain ⟨hxNil, hx3, hxmp3⟩ := videoExt_facts x hx
    have hfa1 : f ≠ audio_tmp_fpath cfg r ++ '.' :: "mp3".data := by
      apply ne_of_getLast
      rw [hfx, getLast?_ext_append, getLast?_cons_ne '.' x hxNil, getLast?_ext_append]
      intro hc
      exact hx3 (by simpa using hc)
    have hfa2 : f ≠ song_fpath cfg r ++ '.' :: "mp3".data := by
      rw [hfx]
      exact ext_append_ne _ _ _ hxmp3
    have hrt := recordTry_video_skip cfg orc r fs.file f hfin
    constructor
    · rw [recordBody_events_eq]
      simp only [List.all_eq_true, List.mem_append]
      rintro ev (hev | hev)
      · rw [hrt.2.1] at hev
        by_cases hga : ((get_dl_type r.dltype).1 && isYoutubeLink r.dlink) = true
        · rw [if_pos hga] at hev
          have ha := audioSection_events cfg orc r fs.file ev hev
          simp [isAudioStep_not_video ev ha]
        · rw [if_neg hga] at hev
          simp at hev
      · rcases hmatch : (recordTry cfg orc r fs.file).2.2 with _ | err <;>
          rw [hmatch] at hev <;> simp at hev
        subst hev; rfl
    · rw [recordBody_file, hrt.1]
      by_cases hga : ((get_dl_type r.dltype).1 && isYoutubeLink r.dlink) = true
      · rw [if_pos hga]
        exact audioSection_preserve cfg orc r fs.file f hfa1 hfa2
      · rw [if_neg hga]
  · intro hfin
    have hrt := recordTry_audio_skip cfg orc r fs.file hve hfin
    constructor
    · rw [recordBody_events_eq]
      simp only [List.all_eq_true, List.mem_append]
      rintro ev (hev | hev)
      · have hv := hrt.2 ev hev
        simp [isVideoStep_not_audio ev hv]
      · rcases hmatch : (recordTry cfg orc r fs.file).2.2 with _ | err <;>
          rw [hmatch] at hev <;> simp at hev
        subst hev; rfl
    · rw [recordBody_file]
      exact hrt.1

/-!
## Non-host records (claims C5 and C10)
-/

/-- Every event of the `try` block comes from the video branch or (only
when the audio guard `getaudio and isyoutube` held) from the audio branch. -/
theorem recordTry_events_mem (cfg : Config) (orc : Oracle) (r : Record) (fm : FileMap) :
    ∀ ev ∈ (recordTry cfg orc r fm).2.1,
      (ev ∈ (videoSection cfg orc r (isYoutubeLink r.dlink)
         (cfg.convert_to_mkv || isYoutubeLink r.dlink) fm).2.1) ∨
      (((get_dl_type r.dltype).1 && isYoutubeLink r.dlink) = true ∧
        ∃ fm1, ev ∈ (audioSection cfg orc r fm1).2.1) := by
  intro ev hev
  simp only [recordTry] at hev
  split at hev
  · rename_i fm1 evs1 err heq
    split at heq
    · left; rw [heq]; exact hev
    · simp at heq
  · rename_i fm1 evs1 heq
    simp only [List.mem_append] at hev
    rcases hev with h1 | h2
    · split at heq
      · left; rw [heq]; exact h1
      · simp only [Prod.mk.injEq] at heq
        rw [← heq.2.1] at h1
        simp at h1
    · by_cases hga : ((get_dl_type r.dltype).1 && isYoutubeLink r.dlink) = true
      · rw [if_pos hga] at h2
        exact Or.inr ⟨hga, fm1, h2⟩
      · rw [if_neg hga] at h2
        simp at h2

/-- For a non-host link the video normalization step emits no
normalizer-invocation event (it copies instead). -/
theorem videoNormalize_no_normalize (orc : Oracle) (cm : Bool) (vt songf : PyStr)
    (fm : FileMap) :
    ∀ ev ∈ (videoNormalize orc false cm vt songf fm).2.1, isNormalizeEv ev = false := by
  intro ev he
  simp only [videoNormalize] at he
  split_ifs at he <;> simp_all [isNormalizeEv]

theorem videoSection_no_normalize (cfg : Config) (orc : Oracle) (r : Record) (cm : Bool)
    (fm : FileMap) :
    ∀ ev ∈ (videoSection cfg orc r false cm fm).2.1, isNormalizeEv ev = false := by
  intro ev he
  simp only [videoSection] at he
  split at he
  · simp at he
  · split at he
    · rename_i fm1 evs1 err heq
      have h1 : ev ∈ (videoDownload orc r cfg cm fm).2.1 := by rw [heq]; exact he
      rw [videoDownload_events orc r cfg cm fm ev h1]; rfl
    · rename_i fm1 evs1 vt heq
      simp only [List.mem_append] at he
      rcases he with h1 | h2
      · have : ev ∈ (videoDownload orc r cfg cm fm).2.1 := by rw [heq]; exact h1
        rw [videoDownload_events orc r cfg cm fm ev this]; rfl
      · exact videoNormalize_no_normalize orc cm vt (song_fpath cfg r) fm1 ev h2

/-- When the video branch runs and raises nothing while the audio guard is
off, the `try` block is exactly the video branch. -/
theorem recordTry_video_only (cfg : Config) (orc : Oracle) (r : Record) (fm : FileMap)
    (hgv : (get_dl_type r.dltype).2 = true)
    (hga : ((get_dl_type r.dltype).1 && isYoutubeLink r.dlink) = false)
    (herr : (videoSection cfg orc r (isYoutubeLink r.dlink)
       (cfg.convert_to_mkv || isYoutubeLink r.dlink) fm).2.2 = none) :
    (recordTry cfg orc r fm).1 = (videoSection cfg orc r (isYoutubeLink r.dlink)
        (cfg.convert_to_mkv || isYoutubeLink r.dlink) fm).1 ∧
    (recordTry cfg orc r fm).2.1 = (videoSection cfg orc r (isYoutubeLink r.dlink)
        (cfg.convert_to_mkv || isYoutubeLink r.dlink) fm).2.1 ∧
    (recordTry cfg orc r fm).2.2 = none := by
  rcases hV : videoSection cfg orc r (isYoutubeLink r.dlink)
      (cfg.convert_to_mkv || isYoutubeLink r.dlink) fm with ⟨fm1, evs1, err1⟩
  rw [hV] at herr
  simp only at herr
  subst herr
  simp [recordTry, hgv, hga, hV]

/-- For a non-host link the whole `try` block leaves the final audio
artifact untouched. -/
theorem recordTry_preserve_audiofinal_nonhost (cfg : Config) (orc : Oracle) (r : Record)
    (fm : FileMap) (hiy : isYoutubeLink r.dlink = false)
    (hve : orc.videoExt ∈ VIDEO_FILE_EXT) :
    (recordTry cfg orc r fm).1 (song_fpath cfg r ++ '.' :: "mp3".data)
      = fm (song_fpath cfg r ++ '.' :: "mp3".data) := by
  simp only [recordTry]
  split
  · rename_i fm1 evs1 err heq
    split at heq
    · have hp := videoSection_preserves_audiofinal cfg orc r (isYoutubeLink r.dlink)
        (cfg.convert_to_mkv || isYoutubeLink r.dlink) fm hve
      rw [heq] at hp
      simpa using hp
    · simp at heq
  · rename_i fm1 evs1 heq
    have hfm1 : fm1 (song_fpath cfg r ++ '.' :: "mp3".data)
        = fm (song_fpath cfg r ++ '.' :: "mp3".data) := by
      split at heq
      · have hp := videoSection_preserves_audiofinal cfg orc r (isYoutubeLink r.dlink)
          (cfg.convert_to_mkv || isYoutubeLink r.dlink) fm hve
        rw [heq] at hp
        simpa using hp
      · simp only [Prod.mk.injEq] at heq
        rw [← heq.1]
    rw [hiy, Bool.and_false] at *
    simp only [Bool.false_eq_true, if_false]
    exact hfm1

/-- Claim C10: the audio branch runs only for links of the primary host:
with `'youtube'` absent from the link, no audio download, tagging or audio
normalization happens, and the final audio artifact is not produced (its
path is left untouched), whatever the record's download-type flag says. -/
theorem C10_audio_requires_youtube (cfg : Config) (orc : Oracle) (r : Record) (fs : FS)
    (hiy : isYoutubeLink r.dlink = false)
    (hve : orc.videoExt ∈ VIDEO_FILE_EXT) :
    (recordBody cfg orc r fs).2.all (fun ev => !isAudioStep ev) = true ∧
    (recordBody cfg orc r fs).1.file (song_fpath cfg r ++ '.' :: "mp3".data)
      = fs.file (song_fpath cfg r ++ '.' :: "mp3".data) := by
  constructor
  · rw [recordBody_events_eq]
    simp only [List.all_eq_true, List.mem_append]
    rintro ev (hev | hev)
    · rcases recordTry_events_mem cfg orc r fs.file ev hev with h | ⟨hga, -⟩
      · have hv := videoSection_events cfg orc r (isYoutubeLink r.dlink)
          (cfg.convert_to_mkv || isYoutubeLink r.dlink) fs.file ev h
        simp [isVideoStep_not_audio ev hv]
      · rw [hiy, Bool.and_false] at hga
        cases hga
    · rcases hmatch : (recordTry cfg orc r fs.file).2.2 with _ | err <;>
        rw [hmatch] at hev <;> simp at hev
      subst hev; rfl
  · rw [recordBody_file]
    exact recordTry_preserve_audiofinal_nonhost cfg orc r fs.file hiy hve

/-- Claim C5: for a record whose link is not from the primary host, the
loudness normalizer is never invoked; when the video branch reaches its
post-download step (fresh successful download shown here, with mkv
conversion requested and distinct temp/output roots), the normalization is
replaced by a straight `shutil.copyfile` of the temp artifact to the final
path, which receives the downloaded content unchanged. -/
theorem C5_nonhost_copy (cfg : Config) (orc : Oracle) (r : Record) (fs : FS)
    (hiy : isYoutubeLink r.dlink = false) :
    (recordBody cfg orc r fs).2.all (fun ev => !isNormalizeEv ev) = true ∧
    (cfg.convert_to_mkv = true → cfg.tempVideoFolder ≠ cfg.outputFolder →
      (get_dl_type r.dltype).2 = true →
      downloaded_video_file_exist fs.file (song_fpath cfg r) = none →
      downloaded_video_file_exist fs.file (video_tmp_fpath cfg r) = none →
      orc.videoDLOk = true →
      Ev.copyVideo (video_tmp_fpath cfg r ++ '.' :: "mkv".data)
          (song_fpath cfg r ++ '.' :: "mkv".data) ∈ (recordBody cfg orc r fs).2 ∧
      (recordBody cfg orc r fs).1.file (song_fpath cfg r ++ '.' :: "mkv".data)
        = some orc.videoContent) := by
  constructor
  · rw [recordBody_events_eq]
    simp only [List.all_eq_true, List.mem_append]
    rintro ev (hev | hev)
    · rcases recordTry_events_mem cfg orc r fs.file ev hev with h | ⟨hga, -⟩
      · rw [hiy] at h
        have := videoSection_no_normalize cfg orc r (cfg.convert_to_mkv || false) fs.file ev h
        simp [this]
      · rw [hiy, Bool.and_false] at hga
        cases hga
    · rcases hmatch : (recordTry cfg orc r fs.file).2.2 with _ | err <;>
        rw [hmatch] at hev <;> simp at hev
      subst hev; rfl
  · intro hmkv hsep hgv hnofin hnotmp hdl
    have hne : video_tmp_fpath cfg r ++ '.' :: "mkv".data
        ≠ song_fpath cfg r ++ '.' :: "mkv".data := by
      intro h
      apply hsep
      simp only [video_tmp_fpath, song_fpath, video_tmp_album_fpath, album_fpath,
        video_tmp_albumartist_fpath, albumartist_fpath, pyJoin, List.append_assoc,
        List.cons_append] at h
      exact List.append_cancel_right h
    have hmkvmem : "mkv".data ∈ VIDEO_FILE_EXT := by decide
    have hfinmkv : isfile fs.file (song_fpath cfg r ++ '.' :: "mkv".data) = false :=
      dvfe_none fs.file (song_fpath cfg r) hnofin "mkv".data hmkvmem
    have hcm : (cfg.convert_to_mkv || isYoutubeLink r.dlink) = true := by
      simp [hmkv, hiy]
    -- compute the video branch
    have hVS : videoSection cfg orc r (isYoutubeLink r.dlink)
        (cfg.convert_to_mkv || isYoutubeLink r.dlink) fs.file
        = (setFile (setFile fs.file (video_tmp_fpath cfg r ++ '.' :: "mkv".data)
             orc.videoContent) (song_fpath cfg r ++ '.' :: "mkv".data) orc.videoContent,
           [Ev.downloadVideo r.dlink,
            Ev.copyVideo (video_tmp_fpath cfg r ++ '.' :: "mkv".data)
              (song_fpath cfg r ++ '.' :: "mkv".data)], none) := by
      rw [hiy, show (cfg.convert_to_mkv || false) = true from by simp [hmkv]]
      have hfile2 : isfile (setFile fs.file (video_tmp_fpath cfg r ++ '.' :: "mkv".data)
          orc.videoContent) (song_fpath cfg r ++ '.' :: "mkv".data) = false := by
        rw [isfile, setFile_ne _ _ _ _ (fun hh => hne hh.symm)]
        exact hfinmkv
      simp only [videoSection, hnofin, videoDownload, hnotmp, hdl, if_true, reduceIte,
        videoNormalize, Bool.not_false, hfile2, Bool.false_eq_true, if_false]
      simp [setFile]
    have hga : ((get_dl_type r.dltype).1 && isYoutubeLink r.dlink) = false := by
      rw [hiy, Bool.and_false]
    have hro := recordTry_video_only cfg orc r fs.file hgv hga (by rw [hVS])
    constructor
    · rw [recordBody_events_eq, hro.2.1, hVS]
      simp
    · rw [recordBody_file, hro.1, hVS]
      simp [setFile]

/-!
## The record loop (claims C3 and C9)
-/

/-- The body of one record never emits a loop marker. -/
theorem recordBody_no_start (cfg : Config) (orc : Oracle) (r : Record) (fs : FS)
    (j : Nat) : Ev.recordStart j ∉ (recordBody cfg orc r fs).2 := by
  rw [recordBody_events_eq]
  intro h
  rcases List.mem_append.mp h with h1 | h2
  · rcases recordTry_events_mem cfg orc r fs.file _ h1 with hv | ⟨-, fm1, ha⟩
    · have := videoSection_events cfg orc r (isYoutubeLink r.dlink)
        (cfg.convert_to_mkv || isYoutubeLink r.dlink) fs.file _ hv
      simp [isVideoStep] at this
    · have := audioSection_events cfg orc r fm1 _ ha
      simp [isAudioStep] at this
  · rcases hm : (recordTry cfg orc r fs.file).2.2 with _ | e <;>
      rw [hm] at h2 <;> simp at h2

/-- One successful loop step. -/
theorem processAll_cons_ok (cfg : Config) (orcs : Nat → Oracle)
    (row : List (Option PyStr)) (rest : List (List (Option PyStr))) (fs : FS) (idx : Nat)
    (r : Record) (hr : extractFields row = some r) :
    processAll cfg orcs (row :: rest) fs idx =
      ((processAll cfg orcs rest (recordBody cfg (orcs idx) r fs).1 (idx + 1)).1,
       Ev.recordStart idx :: ((recordBody cfg (orcs idx) r fs).2 ++
         (processAll cfg orcs rest (recordBody cfg (orcs idx) r fs).1 (idx + 1)).2.1),
       (processAll cfg orcs rest (recordBody cfg (orcs idx) r fs).1 (idx + 1)).2.2) := by
  have hpr : processRecord cfg (orcs idx) row fs
      = some (recordBody cfg (orcs idx) r fs) := by
    simp [processRecord, hr]
  simp [processAll, hpr]

/-- Claim C3: per-record fault isolation: for well-formed rows, whatever the
outcomes of the download, normalize and tag steps (all oracle outcomes), the
loop never aborts and every record is reached. -/
theorem C3_fault_isolation (cfg : Config) (orcs : Nat → Oracle) (fs : FS) (idx : Nat)
    (rows : List (List (Option PyStr)))
    (hwf : ∀ row ∈ rows, (extractFields row).isSome = true) :
    (processAll cfg orcs rows fs idx).2.2 = false ∧
    ∀ j < rows.length, Ev.recordStart (idx + j) ∈ (processAll cfg orcs rows fs idx).2.1 := by
  induction rows generalizing fs idx with
  | nil => exact ⟨rfl, by simp⟩
  | cons row rest ih =>
    obtain ⟨r, hr⟩ := Option.isSome_iff_exists.mp (hwf row (by simp))
    obtain ⟨ih1, ih2⟩ := ih ((recordBody cfg (orcs idx) r fs).1) (idx + 1)
      (fun row' hrow' => hwf row' (by simp [hrow']))
    rw [processAll_cons_ok cfg orcs row rest fs idx r hr]
    refine ⟨ih1, ?_⟩
    intro j hj
    cases j with
    | zero => simp
    | succ j' =>
      have hj' : j' < rest.length := by simpa using hj
      have := ih2 j' hj'
      have harith : idx + (j' + 1) = idx + 1 + j' := by omega
      rw [harith]
      simp only [List.mem_cons, List.mem_append]
      exact Or.inr (Or.inr this)

/-- Claim C9: a row with fewer columns than the nine-column layout parses,
but processing it raises an uncaught error outside the per-record `try`
block: the loop reaches it, aborts there, skips all remaining records, and
the process exits with code 1. -/
theorem C9_short_row_aborts (cfg : Config) (orcs : Nat → Oracle) (fs : FS)
    (lines : List PyStr) (pref suf : List (List (Option PyStr)))
    (bad : List (Option PyStr))
    (hp : parse_input_list lines = pref ++ bad :: suf)
    (hpref : ∀ row ∈ pref, (extractFields row).isSome = true)
    (hbad : extractFields bad = none) :
    (runProgram cfg true (Except.ok lines) true orcs fs).1 = 1 ∧
    ∀ j, Ev.recordStart j ∈ (runProgram cfg true (Except.ok lines) true orcs fs).2 ↔
      j ≤ pref.length := by
  have key : ∀ (pref : List (List (Option PyStr))) (fs : FS) (idx : Nat),
      (∀ row ∈ pref, (extractFields row).isSome = true) →
      (processAll cfg orcs (pref ++ bad :: suf) fs idx).2.2 = true ∧
      ∀ j, Ev.recordStart j ∈ (processAll cfg orcs (pref ++ bad :: suf) fs idx).2.1 ↔
        (idx ≤ j ∧ j ≤ idx + pref.length) := by
    intro pref
    induction pref with
    | nil =>
      intro fs idx _
      have hpr : processRecord cfg (orcs idx) bad fs = none := by
        simp [processRecord, hbad]
      constructor
      · simp [processAll, hpr]
      · intro j
        simp [processAll, hpr, Nat.le_antisymm_iff, And.comm]
    | cons row rest ih =>
      intro fs idx hwf
      obtain ⟨r, hr⟩ := Option.isSome_iff_exists.mp (hwf row (by simp))
      rw [List.cons_append, processAll_cons_ok cfg orcs row (rest ++ bad :: suf) fs idx r hr]
      obtain ⟨ih1, ih2⟩ := ih ((recordBody cfg (orcs idx) r fs).1) (idx + 1)
        (fun row' hrow' => hwf row' (by simp [hrow']))
      refine ⟨ih1, ?_⟩
      intro j
      simp only [List.mem_cons, List.mem_append]
      constructor
      · rintro (hj | hj | hj)
        · injection hj with hji
          subst hji
          exact ⟨Nat.le_refl _, Nat.le_add_right _ _⟩
        · exact absurd hj (recordBody_no_start cfg (orcs idx) r fs j)
        · have := (ih2 j).mp hj
          simp only [List.length_cons]
          omega
      · intro hj
        by_cases hji : j = idx
        · exact Or.inl (by rw [hji])
        · refine Or.inr (Or.inr ((ih2 j).mpr ?_))
          simp only [List.length_cons] at hj
          omega
  obtain ⟨k1, k2⟩ := key pref fs 0 hpref
  have hrun : runProgram cfg true (Except.ok lines) true orcs fs
      = ((if (processAll cfg orcs (parse_input_list lines) fs 0).2.2 then 1 else 0),
         (processAll cfg orcs (parse_input_list lines) fs 0).2.1) := by
    simp [runProgram, DLYoutube_init]
  rw [hrun, hp]
  constructor
  · simp [k1]
  · intro j
    rw [k2 j]
    omega

/-!
## Claim C8: constructor-time failure
-/

/-- Claim C8: if the input file cannot be read, construction fails — a
missing file as a FileNotFound condition, any other read error propagated —
and no record is processed (empty trace, exit code 1). -/
theorem C8_constructor_fatal (cfg : Config) (orcs : Nat → Oracle) (fs : FS)
    (tempMkdirOk : Bool) (e : ReadErr) :
    DLYoutube_init true (Except.error e) tempMkdirOk =
      Except.error (match e with
        | ReadErr.fileNotFound => InitErr.inputFileNotFound
        | ReadErr.otherRead => InitErr.inputReadError) ∧
    runProgram cfg true (Except.error e) tempMkdirOk orcs fs = (1, []) := by
  cases e <;> exact ⟨rfl, rfl⟩

/-!
## Claim C4: the tag-save / invalidation step
-/

/-- Claim C4 (amended): the original claim is false on the code: at lines 479–482 the
`os.remove(audiofpath)` runs after the `try/except` around `audio.save()`
on every path, so a failed tag save still removes the final artifact.
The amended statement: after tagging, the final audio path is absent
regardless of the save outcome; a successful save rewrote the temp
artifact, a failed one left it alone; no exception escapes the step. -/
theorem C4_amended_remove_unconditional (orc : Oracle) (tmpPath finPath : PyStr)
    (fm : FileMap) (hload : orc.id3LoadOk = true) :
    (audioTagAndInvalidate orc tmpPath finPath fm).1 finPath = none ∧
    Ev.tagSave tmpPath orc.tagSaveOk ∈ (audioTagAndInvalidate orc tmpPath finPath fm).2.1 ∧
    (tmpPath ≠ finPath → (audioTagAndInvalidate orc tmpPath finPath fm).1 tmpPath
      = (if orc.tagSaveOk then some orc.taggedContent else fm tmpPath)) ∧
    (audioTagAndInvalidate orc tmpPath finPath fm).2.2 = none := by
  rcases hsave : orc.tagSaveOk with _ | _ <;>
    simp only [audioTagAndInvalidate, hload, hsave, Bool.not_true, Bool.false_eq_true,
      if_false, reduceIte] <;>
    refine ⟨by simp [removeFile], by simp, fun hne => ?_, by trivial⟩ <;>
    simp [removeFile_ne _ _ _ hne, setFile]

/-!
## Claim C6: per-record directory creation
-/

/-- Claim C6 (amended): the per-record `os.makedirs` outcomes are invisible to the rest of the
record's processing: the produced files and the event trace are identical
whatever `mkdirOk` says (the `continue` at line 313 only advances the inner
directory loop, which would advance anyway). -/
theorem C6_amended_mkdir_ignored (cfg : Config) (orc : Oracle) (r : Record) (fs : FS)
    (m : PyStr → Bool) :
    (recordBody cfg { orc with mkdirOk := m } r fs).1.file
      = (recordBody cfg orc r fs).1.file ∧
    (recordBody cfg { orc with mkdirOk := m } r fs).2 = (recordBody cfg orc r fs).2 := by
  have hTry : recordTry cfg { orc with mkdirOk := m } r fs.file
      = recordTry cfg orc r fs.file := rfl
  constructor
  · rw [recordBody_file, recordBody_file, hTry]
  · rw [recordBody_events_eq, recordBody_events_eq, hTry]

/-!
## Witnesses and counterexamples
-/

/-- Witness for C1: with both final artifacts present, the record performs
no step of either kind and leaves both finals unchanged. -/
theorem C1_final_exists_skip_witness :
    downloaded_video_file_exist fsBothFinal.file (song_fpath cfgW rW)
      = some ("out/AA/AL/T.mp4".data) ∧
    isfile fsBothFinal.file (song_fpath cfgW rW ++ '.' :: "mp3".data) = true ∧
    (recordBody cfgW orcW rW fsBothFinal).2.all (fun ev => !isVideoStep ev) = true ∧
    (recordBody cfgW orcW rW fsBothFinal).1.file ("out/AA/AL/T.mp4".data)
      = fsBothFinal.file ("out/AA/AL/T.mp4".data) ∧
    (recordBody cfgW orcW rW fsBothFinal).2.all (fun ev => !isAudioStep ev) = true ∧
    (recordBody cfgW orcW rW fsBothFinal).1.file (song_fpath cfgW rW ++ '.' :: "mp3".data)
      = fsBothFinal.file (song_fpath cfgW rW ++ '.' :: "mp3".data) := by
  have h := C1_final_exists_skip cfgW orcW rW fsBothFinal ("out/AA/AL/T.mp4".data) (by decide)
  have h1 := h.1 (by decide)
  have h2 := h.2 (by decide)
  exact ⟨by decide, by decide, h1.1, h1.2, h2.1, h2.2⟩

/-- Witness for C3: with a failing download on the first record, the loop
still reaches the second record and completes without aborting. -/
theorem C3_fault_isolation_witness :
    (processAll cfgW (fun _ => orcWdlFail) (parse_input_list linesW3) fsEmpty 0).2.2 = false ∧
    Ev.recordStart 1
      ∈ (processAll cfgW (fun _ => orcWdlFail) (parse_input_list linesW3) fsEmpty 0).2.1 := by
  have h := C3_fault_isolation cfgW (fun _ => orcWdlFail) fsEmpty 0
    (parse_input_list linesW3) (by decide)
  exact ⟨h.1, by simpa using h.2 1 (by decide)⟩

/-- Witness for C5 at a fresh non-host record with mkv conversion. -/
theorem C5_nonhost_copy_witness :
    (recordBody cfgWmkv orcW rWnonhost fsEmpty).2.all (fun ev => !isNormalizeEv ev) = true ∧
    Ev.copyVideo (video_tmp_fpath cfgWmkv rWnonhost ++ '.' :: "mkv".data)
        (song_fpath cfgWmkv rWnonhost ++ '.' :: "mkv".data)
      ∈ (recordBody cfgWmkv orcW rWnonhost fsEmpty).2 ∧
    (recordBody cfgWmkv orcW rWnonhost fsEmpty).1.file
        (song_fpath cfgWmkv rWnonhost ++ '.' :: "mkv".data) = some orcW.videoContent := by
  have h := C5_nonhost_copy cfgWmkv orcW rWnonhost fsEmpty (by decide)
  have h2 := h.2 (by decide) (by decide) (by decide) (by decide) (by decide) (by decide)
  exact ⟨h.1, h2.1, h2.2⟩

/-- Witness for C10: a non-host record with an audio-only flag performs no
audio step and produces no final audio artifact. -/
theorem C10_audio_requires_youtube_witness :
    (get_dl_type rWaudio.dltype).1 = true ∧
    (recordBody cfgW orcW rWaudio fsEmpty).2.all (fun ev => !isAudioStep ev) = true ∧
    (recordBody cfgW orcW rWaudio fsEmpty).1.file
        (song_fpath cfgW rWaudio ++ '.' :: "mp3".data)
      = fsEmpty.file (song_fpath cfgW rWaudio ++ '.' :: "mp3".data) := by
  have h := C10_audio_requires_youtube cfgW orcW rWaudio fsEmpty (by decide) (by decide)
  exact ⟨by decide, h.1, h.2⟩

/-- Counterexample to C4 as stated: the tag save fails and a stale final
audio artifact is present, yet the step removes it. -/
theorem C4_counterexample :
    orcWtagFail.tagSaveOk = false ∧
    fmStaleFinal "out/s.mp3".data = some 7 ∧
    (audioTagAndInvalidate orcWtagFail "ta/s.mp3".data "out/s.mp3".data
      fmStaleFinal).1 "out/s.mp3".data = none := by
  refine ⟨rfl, by decide, by decide⟩

/-- Witness for the amended C4 at the same concrete input. -/
theorem C4_amended_remove_unconditional_witness :
    (audioTagAndInvalidate orcWtagFail "ta/s.mp3".data "out/s.mp3".data
      fmStaleFinal).1 "out/s.mp3".data = none ∧
    Ev.tagSave "ta/s.mp3".data orcWtagFail.tagSaveOk
      ∈ (audioTagAndInvalidate orcWtagFail "ta/s.mp3".data "out/s.mp3".data
          fmStaleFinal).2.1 ∧
    (audioTagAndInvalidate orcWtagFail "ta/s.mp3".data "out/s.mp3".data
        fmStaleFinal).1 "ta/s.mp3".data
      = (if orcWtagFail.tagSaveOk then some orcWtagFail.taggedContent
         else fmStaleFinal "ta/s.mp3".data) := by
  have h := C4_amended_remove_unconditional orcWtagFail "ta/s.mp3".data "out/s.mp3".data
    fmStaleFinal (by decide)
  exact ⟨h.1, h.2.1, h.2.2.1 (by decide)⟩

/-- Counterexample to C6 as stated: a per-record directory cannot be
created and does not exist, yet the record's video branch proceeds (the
downloader is invoked) instead of being abandoned. -/
theorem C6_counterexample :
    orcWmkdirFail.mkdirOk (video_tmp_albumartist_fpath cfgW rW) = false ∧
    fsEmpty.dir (video_tmp_albumartist_fpath cfgW rW) = false ∧
    (recordBody cfgW orcWmkdirFail rW fsEmpty).1.dir
        (video_tmp_albumartist_fpath cfgW rW) = false ∧
    Ev.downloadVideo rW.dlink ∈ (recordBody cfgW orcWmkdirFail rW fsEmpty).2 := by
  refine ⟨rfl, rfl, by decide, by decide⟩

/-- Witness for C9: a one-column first row aborts the run with exit code 1
after reaching only that record. -/
theorem C9_short_row_aborts_witness :
    (runProgram cfgW true (Except.ok linesW9) true (fun _ => orcW) fsEmpty).1 = 1 ∧
    Ev.recordStart 0 ∈ (runProgram cfgW true (Except.ok linesW9) true (fun _ => orcW) fsEmpty).2 ∧
    Ev.recordStart 1 ∉ (runProgram cfgW true (Except.ok linesW9) true (fun _ => orcW) fsEmpty).2 := by
  have h := C9_short_row_aborts cfgW (fun _ => orcW) fsEmpty linesW9 []
    ((parse_input_list linesW9).tail) ((parse_input_list linesW9).headD [])
    (by decide) (by decide) (by decide)
  refine ⟨h.1, (h.2 0).mpr (by decide), fun hc => ?_⟩
  have := (h.2 1).mp hc
  simp at this

end DLY
